import Mathlib

/-!
Shallow embedding of the LookSee dataset-profiling tool
(`app/src/looksee.py`) and proofs about its observable behaviour.
The DuckDB engine is external to the repository; it is modelled by a
single-slot table store plus explicitly supplied aggregate and cast
operations (`EngineOps`), following the engine interface the
specification describes.  Line numbers in doc comments refer to
`app/src/looksee.py`.
-/

namespace LookSee

/-- A scalar cell held by the analytical engine: numeric values
(integers, doubles, decimals) are modelled as rationals, everything
else as strings.  SQL NULL is represented by `Option.none` one level
up. -/
inductive Value where
  | vnum (q : ℚ)
  | vstr (s : String)
deriving DecidableEq, Repr

/-- Lexicographic comparison of char-code lists; the order the engine
uses for textual values in ORDER BY, MIN and MAX. -/
def lexLe : List Nat → List Nat → Bool
  | [], _ => true
  | _ :: _, [] => false
  | a :: as, b :: bs => if a < b then true else if b < a then false else lexLe as bs

/-- Engine comparison on scalar values (numerics before text, each
family ordered naturally). -/
def valLe : Value → Value → Bool
  | .vnum a, .vnum b => decide (a ≤ b)
  | .vnum _, .vstr _ => true
  | .vstr _, .vnum _ => false
  | .vstr a, .vstr b => lexLe (a.data.map Char.toNat) (b.data.map Char.toNat)

/-- Comparison lifted to nullable cells with NULLS LAST, the engine's
default null placement for ascending ORDER BY. -/
def optLe : Option Value → Option Value → Bool
  | none, none => true
  | none, some _ => false
  | some _, none => true
  | some a, some b => valLe a b

/-- `optLe` as a relation, for use with the sorting lemmas. -/
def OLe (a b : Option Value) : Prop := optLe a b = true

instance : DecidableRel OLe := fun a b => inferInstanceAs (Decidable (optLe a b = true))

/-- Characters of the final path component (after the last slash);
models `pathlib.Path(p).name`. -/
def afterLastSlash (cs : List Char) : List Char :=
  cs.foldl (fun acc c => if c = '/' then [] else acc ++ [c]) []

/-- Index of the last dot, the head counting as index `i`; models
`str.rfind(".")` as `pathlib` uses it. -/
def lastDotIdx : List Char → Nat → Option Nat
  | [], _ => none
  | c :: t, i =>
    match lastDotIdx t (i + 1) with
    | some j => some j
    | none => if c = '.' then some i else none

/-- Characters of `pathlib.Path(p).suffix`: the final component from
its last dot onward, provided that dot is neither the first nor the
last character of the component, else empty. -/
def suffixChars (cs : List Char) : List Char :=
  let name := afterLastSlash cs
  match lastDotIdx name 0 with
  | some i => if 0 < i ∧ i < name.length - 1 then name.drop i else []
  | none => []

/-- `Path(x).suffix[1:]`: the extension without its dot (lines 45
and 47). -/
def extChars (cs : List Char) : List Char := (suffixChars cs).drop 1

/-- Lines 44-47: the extension used for format dispatch comes from
`uploaded_file_name` when that argument is truthy in Python's sense
(present and non-empty), else from `file_path`. -/
def resolvedFileType (file_path : String) (uploaded_file_name : Option String) : List Char :=
  match uploaded_file_name with
  | some n => if n ≠ "" then extChars n.data else extChars file_path.data
  | none => extChars file_path.data

/-- The `read_functions` table and settings loaded from
`looksee.toml`. -/
structure Config where
  read_functions : List (String × String)
  table_name : String
deriving DecidableEq, Repr

/-- `_get_duckdb_read_function` (lines 33-38) with the `.lower()` of
line 48 folded in: look the lower-cased file type up in the
configuration's dispatch table. -/
def lookupRead (cfg : Config) (file_type : List Char) : Option String :=
  (cfg.read_functions.find? (fun p => decide (p.1.data = file_type.map Char.toLower))).map
    Prod.snd

/-- A column of the analytical table as the engine catalog reports
it. -/
structure Col where
  name : String
  dtype : String
deriving DecidableEq, Repr

/-- The analytical table: its catalog schema and its rows; a SQL NULL
cell is `none`. -/
structure Table where
  schema : List Col
  rows : List (List (Option Value))
deriving DecidableEq, Repr

/-- Values of the column at a given schema index. -/
def colValsAt (t : Table) (i : Nat) : List (Option Value) :=
  t.rows.map (fun r => r.getD i none)

/-- Values of the column a query references by name, as the engine
resolves the identifier against the catalog. -/
def colVals (t : Table) (name : String) : List (Option Value) :=
  match t.schema.findIdx? (fun c => decide (c.name = name)) with
  | some i => colValsAt t i
  | none => []

/-- `COUNT(*)` over the table. -/
def countStar (t : Table) : Nat := t.rows.length

/-- `COUNT(col)`: the number of non-null cells. -/
def nonNullCount (vals : List (Option Value)) : Nat := (vals.filterMap id).length

/-- `COUNT(DISTINCT col)`: distinct non-null cells. -/
def uniqueCountAgg (vals : List (Option Value)) : Nat := (vals.filterMap id).dedup.length

/-- `MIN(col)`: least non-null cell in the engine order, NULL when the
column has no non-null cell. -/
def minAgg (vals : List (Option Value)) : Option Value :=
  match vals.filterMap id with
  | [] => none
  | v :: vs => some (vs.foldl (fun acc w => if valLe w acc then w else acc) v)

/-- `MAX(col)`. -/
def maxAgg (vals : List (Option Value)) : Option Value :=
  match vals.filterMap id with
  | [] => none
  | v :: vs => some (vs.foldl (fun acc w => if valLe acc w then w else acc) v)

/-- `SELECT DISTINCT col FROM t ORDER BY col LIMIT 5` (lines 194-199):
the distinct cells - NULL forming its own group - sorted ascending,
first five. -/
def distinctQuery (vals : List (Option Value)) : List (Option Value) :=
  (List.insertionSort OLe vals.dedup).take 5

/-- Aggregate and cast operations delegated to the external engine and
not computed by looksee.py itself: AVG, STDDEV (whose numeric results
no claim inspects) and CAST. -/
structure EngineOps where
  avgFn : List (Option Value) → Option Value
  stddevFn : List (Option Value) → Option Value
  castFn : Value → String → Option Value

/-- The engine connection: the single slot for the table under the
configured name, plus a count of executed statements, which lets a
theorem observe whether a call touched the engine at all. -/
structure EngineState where
  table : Option Table
  execCount : Nat
deriving DecidableEq, Repr

/-- Record `n` further executed engine statements. -/
def bump (es : EngineState) (n : Nat) : EngineState :=
  { es with execCount := es.execCount + n }

/-- One record of `self.metadata` (lines 131-137). -/
structure MetadataRecord where
  column_name : String
  data_type : String
  total_rows : Nat
  null_count : Nat
  unique_count : Nat
deriving DecidableEq, Repr

/-- A validation finding; the source renders it as the warning string
of line 100, which carries exactly these three fields. -/
structure Finding where
  column_name : String
  data_type : String
  invalid_count : Nat
deriving DecidableEq, Repr

/-- Line 94's per-row condition: the cell casts to the column's own
declared type as NULL while being non-null itself. -/
def castMismatch (eng : EngineOps) (dtype : String) (ov : Option Value) : Bool :=
  match ov with
  | none => false
  | some v => (eng.castFn v dtype).isNone

/-- The count the validation query of lines 92-97 returns for one
column. -/
def invalidCount (eng : EngineOps) (tbl : Option Table) (c : Col) : Nat :=
  match tbl with
  | none => 0
  | some t => (colVals t c.name).countP (castMismatch eng c.dtype)

/-- `validate_column_types` (lines 78-103): one catalog query, then one
count query per column; columns whose count is positive each yield a
finding. -/
def validate_column_types (eng : EngineOps) (es : EngineState) : List Finding × EngineState :=
  let cols := match es.table with
    | some t => t.schema
    | none => []
  let findings := cols.filterMap (fun c =>
    let cnt := invalidCount eng es.table c
    if cnt > 0 then some ⟨c.name, c.dtype, cnt⟩ else none)
  (findings, bump es (1 + cols.length))

/-- Process state of one LookSee instance: configuration, engine
connection, the memo table of the `functools.cache` on `ingest_data`,
and `self.metadata`, absent until first assigned like the Python
attribute. -/
structure LookSeeState where
  config : Config
  engine : EngineState
  cache : List ((String × Option String) × Bool)
  metadata : Option (List MetadataRecord)
deriving DecidableEq, Repr

/-- `__init__` (lines 12-31) after configuration loading: fresh
in-memory connection, no table, empty memo cache, `metadata` not yet
assigned. -/
def initState (cfg : Config) : LookSeeState :=
  { config := cfg, engine := { table := none, execCount := 0 }, cache := [], metadata := none }

/-- Memo lookup of the `functools.cache` on `ingest_data`, keyed by the
exact argument pair. -/
def cacheLookup (cache : List ((String × Option String) × Bool))
    (k : String × Option String) : Option Bool :=
  (cache.find? (fun e => decide (e.1 = k))).map Prod.snd

/-- The world of readable sources: what `read_function(file_path, ...)`
yields; `none` when the source is unreadable or its content rejected by
the engine. -/
abbrev World := String → String → Option Table

/-- The body of `ingest_data` (lines 42-75): everything inside the
memoized function, with the `except` of lines 73-75 already applied, so
the result is the returned Bool plus the engine state as mutated up to
the failure point.  An unsupported extension raises before any engine
statement; a failing CREATE raises after the DROP has already run. -/
def ingestBody (eng : EngineOps) (world : World) (cfg : Config) (es : EngineState)
    (file_path : String) (uploaded_file_name : Option String) : Bool × EngineState :=
  let ft := resolvedFileType file_path uploaded_file_name
  match lookupRead cfg ft with
  | none => (false, es)
  | some rf =>
    let es1 : EngineState := { table := none, execCount := es.execCount + 1 }
    match world rf file_path with
    | none => (false, bump es1 1)
    | some t =>
      let es2 : EngineState := { table := some t, execCount := es1.execCount + 1 }
      (true, (validate_column_types eng es2).2)

/-- `ingest_data` (lines 40-75) together with its `functools.cache`:
on a hit the stored result is returned and nothing runs; on a miss the
body runs and its boolean result is stored under the argument pair. -/
def ingest_data (eng : EngineOps) (world : World) (s : LookSeeState)
    (file_path : String) (uploaded_file_name : Option String) : Bool × LookSeeState :=
  match cacheLookup s.cache (file_path, uploaded_file_name) with
  | some b => (b, s)
  | none =>
    let r := ingestBody eng world s.config s.engine file_path uploaded_file_name
    (r.1, { s with
              engine := r.2
              cache := ((file_path, uploaded_file_name), r.1) :: s.cache })

/-- One metadata record for a column (the query of lines 121-127 and
the record of lines 131-137). -/
def metadataFor (t : Table) (c : Col) : MetadataRecord :=
  let vals := colVals t c.name
  { column_name := c.name
    data_type := c.dtype
    total_rows := countStar t
    null_count := countStar t - nonNullCount vals
    unique_count := uniqueCountAgg vals }

/-- `extract_metadata` (lines 105-143): enumerate the catalog (an
absent table yields no columns, so the loop is skipped and `[]` is
stored), run one aggregate query per column, store the records in
`self.metadata`.  The handler of lines 141-143 would likewise store
`[]`. -/
def extract_metadata (s : LookSeeState) : LookSeeState :=
  match s.engine.table with
  | none => { s with metadata := some [], engine := bump s.engine 1 }
  | some t =>
    { s with
        metadata := some (t.schema.map (metadataFor t))
        engine := bump s.engine (1 + t.schema.length) }

/-- A value stored in a summary record. -/
inductive SVal where
  | vopt (v : Option Value)
  | vnat (n : Nat)
  | vlist (vs : List (Option Value))
deriving DecidableEq, Repr

/-- The numeric type names of line 159. -/
def numericTypes : List String := ["INTEGER", "BIGINT", "DOUBLE", "DECIMAL"]

/-- `column_summary` (lines 146-206): the result record (empty on the
caught failure paths: absent table or unknown column, where
`fetchone()[0]` raises) and the state with the engine activity
recorded.  Keys appear in the order the SELECT aliases produce them,
`distinct_values` appended last when the distinct count is at
most 5. -/
def column_summary (eng : EngineOps) (s : LookSeeState) (column_name : String) :
    List (String × SVal) × LookSeeState :=
  match s.engine.table with
  | none => ([], { s with engine := bump s.engine 1 })
  | some t =>
    match t.schema.find? (fun c => decide (c.name = column_name)) with
    | none => ([], { s with engine := bump s.engine 1 })
    | some c =>
      let vals := colVals t column_name
      let uc := uniqueCountAgg vals
      let nc := countStar t - nonNullCount vals
      let base : List (String × SVal) :=
        if c.dtype ∈ numericTypes then
          [("min_value", .vopt (minAgg vals)), ("max_value", .vopt (maxAgg vals)),
           ("mean_value", .vopt (eng.avgFn vals)), ("std_dev", .vopt (eng.stddevFn vals)),
           ("unique_count", .vnat uc), ("null_count", .vnat nc)]
        else if c.dtype = "DATE" then
          [("min_value", .vopt (minAgg vals)), ("max_value", .vopt (maxAgg vals)),
           ("unique_count", .vnat uc), ("null_count", .vnat nc)]
        else
          [("unique_count", .vnat uc), ("null_count", .vnat nc)]
      match base.find? (fun e => decide (e.1 = "unique_count")) with
      | some (_, .vnat u) =>
        if u ≤ 5 then
          (base ++ [("distinct_values", .vlist (distinctQuery vals))],
           { s with engine := bump s.engine 3 })
        else (base, { s with engine := bump s.engine 2 })
      | _ => ([], { s with engine := bump s.engine 2 })

/-- `display_metadata` (lines 208-212): return `self.metadata`; reading
the attribute raises `AttributeError` when it was never assigned. -/
def display_metadata (s : LookSeeState) : Except String (List MetadataRecord) :=
  match s.metadata with
  | some m => Except.ok m
  | none => Except.error "AttributeError"

/-! ### Concrete sample data for witnesses and counterexamples -/

/-- A demo configuration with a csv read function. -/
def cfg0 : Config := { read_functions := [("csv", "read_csv")], table_name := "dataset" }

/-- Concrete engine operations for evaluating the model: AVG and STDDEV
results are irrelevant to every claim and returned as NULL; CAST sends
text to NULL under INTEGER and is the identity otherwise. -/
def eng0 : EngineOps :=
  { avgFn := fun _ => none
    stddevFn := fun _ => none
    castFn := fun v dt =>
      match v with
      | .vstr _ => if dt = "INTEGER" then none else some v
      | .vnum _ => some v }

/-- One integer column, one row. -/
def tA : Table := { schema := [⟨"x", "INTEGER"⟩], rows := [[some (.vnum 1)]] }

/-- One integer column, two rows. -/
def tB : Table := { schema := [⟨"y", "INTEGER"⟩], rows := [[some (.vnum 2)], [some (.vnum 3)]] }

/-- A textual column with values a, a, NULL. -/
def tCat : Table :=
  { schema := [⟨"cat", "VARCHAR"⟩]
    rows := [[some (.vstr "a")], [some (.vstr "a")], [none]] }

/-- An integer column and a textual column, with one NULL. -/
def tMix : Table :=
  { schema := [⟨"n", "INTEGER"⟩, ⟨"c", "VARCHAR"⟩]
    rows := [[some (.vnum 1), some (.vstr "a")], [none, some (.vstr "b")]] }

/-- An INTEGER-typed column holding a stray text cell, the
guessed-wrong-inference scenario of the specification. -/
def tBad : Table := { schema := [⟨"n", "INTEGER"⟩], rows := [[some (.vstr "oops")], [some (.vnum 7)]] }

/-- Readable sources: `a.csv`, `b.csv` and `bad.csv` are readable csv
files; everything else is unreadable or rejected. -/
def world0 : World := fun rf p =>
  if rf = "read_csv" then
    if p = "a.csv" then some tA
    else if p = "b.csv" then some tB
    else if p = "bad.csv" then some tBad
    else none
  else none

/-- A state holding a previously ingested table `tA`. -/
def sPrior : LookSeeState :=
  { config := cfg0, engine := { table := some tA, execCount := 0 }, cache := [], metadata := none }

/-- A state holding the a, a, NULL textual table. -/
def sCat : LookSeeState :=
  { config := cfg0, engine := { table := some tCat, execCount := 0 }, cache := [], metadata := none }

/-- A state holding the mixed table. -/
def sMix : LookSeeState :=
  { config := cfg0, engine := { table := some tMix, execCount := 0 }, cache := [], metadata := none }

/-- A state holding the mistyped table. -/
def sBad : LookSeeState :=
  { config := cfg0, engine := { table := some tBad, execCount := 0 }, cache := [], metadata := none }

/-! ### Order facts about the engine comparison -/

theorem lexLe_cons (a b : Nat) (as bs : List Nat) :
    lexLe (a :: as) (b :: bs) = true ↔ a < b ∨ (a = b ∧ lexLe as bs = true) := by
  simp only [lexLe]
  split_ifs with h1 h2
  · simp [h1]
  · simp only [false_iff]
    rintro (h | ⟨rfl, -⟩) <;> omega
  · have : a = b := by omega
    simp [this, h1]

theorem lexLe_total (x y : List Nat) : lexLe x y = true ∨ lexLe y x = true := by
  induction x generalizing y with
  | nil => left; rfl
  | cons a as ih =>
    cases y with
    | nil => right; rfl
    | cons b bs =>
      rcases Nat.lt_trichotomy a b with h | h | h
      · left; rw [lexLe_cons]; exact Or.inl h
      · subst h
        rcases ih bs with h2 | h2
        · left; rw [lexLe_cons]; exact Or.inr ⟨rfl, h2⟩
        · right; rw [lexLe_cons]; exact Or.inr ⟨rfl, h2⟩
      · right; rw [lexLe_cons]; exact Or.inl h

theorem lexLe_trans (x y z : List Nat) (h1 : lexLe x y = true) (h2 : lexLe y z = true) :
    lexLe x z = true := by
  induction x generalizing y z with
  | nil => rfl
  | cons a as ih =>
    cases y with
    | nil => simp [lexLe] at h1
    | cons b bs =>
      cases z with
      | nil => simp [lexLe] at h2
      | cons c cs =>
        rw [lexLe_cons] at h1 h2 ⊢
        rcases h1 with hab | ⟨hab, h1'⟩ <;> rcases h2 with hbc | ⟨hbc, h2'⟩
        · exact Or.inl (by omega)
        · exact Or.inl (by omega)
        · exact Or.inl (by omega)
        · exact Or.inr ⟨by omega, ih bs cs h1' h2'⟩

theorem valLe_total (a b : Value) : valLe a b = true ∨ valLe b a = true := by
  cases a with
  | vnum qa =>
    cases b with
    | vnum qb =>
      rcases le_total qa qb with h | h
      · left; simp [valLe, h]
      · right; simp [valLe, h]
    | vstr _ => left; rfl
  | vstr sa =>
    cases b with
    | vnum _ => right; rfl
    | vstr sb => exact lexLe_total _ _

theorem valLe_trans {a b c : Value} (h1 : valLe a b = true) (h2 : valLe b c = true) :
    valLe a c = true := by
  cases a <;> cases b <;> cases c <;> simp_all [valLe, decide_eq_true_eq]
  · exact le_trans h1 h2
  · exact lexLe_trans _ _ _ h1 h2

instance : IsTotal (Option Value) OLe := by
  constructor
  intro a b
  cases a with
  | none =>
    cases b with
    | none => left; rfl
    | some _ => right; rfl
  | some va =>
    cases b with
    | none => left; rfl
    | some vb => exact valLe_total va vb

instance : IsTrans (Option Value) OLe := by
  constructor
  intro a b c hab hbc
  cases a <;> cases b <;> cases c <;> simp_all [OLe, optLe]
  exact valLe_trans hab hbc

/-! ### Generic lemmas about the embedded operations -/

/-- The number of distinct cells (NULL forming one group) is the
distinct non-null count, plus one when the column has a null. -/
theorem dedup_length_eq (vals : List (Option Value)) :
    vals.dedup.length = uniqueCountAgg vals + (if none ∈ vals then 1 else 0) := by
  induction vals with
  | nil => simp [uniqueCountAgg]
  | cons o t ih =>
    cases o with
    | none =>
      by_cases hmem : (none : Option Value) ∈ t
      · rw [List.dedup_cons_of_mem hmem]
        simp only [uniqueCountAgg, List.filterMap_cons_none] at *
        simp [hmem] at ih ⊢
        omega
      · rw [List.dedup_cons_of_not_mem hmem]
        simp only [uniqueCountAgg, List.filterMap_cons_none, List.length_cons] at *
        simp [hmem] at ih ⊢
        omega
    | some x =>
      have hfm : List.filterMap id (some x :: t) = x :: List.filterMap id t := by simp
      have hcorr : some x ∈ t ↔ x ∈ List.filterMap id t := by simp
      have hnone : ((none : Option Value) ∈ some x :: t) ↔ ((none : Option Value) ∈ t) := by
        simp
      simp only [uniqueCountAgg, hfm, hnone] at ih ⊢
      by_cases hmem : some x ∈ t
      · rw [List.dedup_cons_of_mem hmem, List.dedup_cons_of_mem (hcorr.mp hmem)]
        exact ih
      · rw [List.dedup_cons_of_not_mem hmem,
            List.dedup_cons_of_not_mem (fun h => hmem (hcorr.mpr h))]
        simp only [List.length_cons]
        omega

/-- `COUNT(col)` never exceeds `COUNT(*)`. -/
theorem nonNullCount_le_countStar (t : Table) (name : String) :
    nonNullCount (colVals t name) ≤ countStar t := by
  unfold colVals
  cases h : t.schema.findIdx? (fun c => decide (c.name = name)) with
  | none => simp [nonNullCount]
  | some i =>
    simp only [nonNullCount, colValsAt, countStar]
    calc ((t.rows.map (fun r => r.getD i none)).filterMap id).length
        ≤ (t.rows.map (fun r => r.getD i none)).length := List.length_filterMap_le _ _
      _ = t.rows.length := List.length_map _ _

/-- A cache hit returns the stored result and leaves the whole state,
engine included, unchanged. -/
theorem ingest_hit {eng world s file_path uploaded_file_name b}
    (h : cacheLookup s.cache (file_path, uploaded_file_name) = some b) :
    ingest_data eng world s file_path uploaded_file_name = (b, s) := by
  unfold ingest_data
  rw [h]

/-- A cache miss runs the body and prepends the memo entry. -/
theorem ingest_miss {eng world s file_path uploaded_file_name}
    (h : cacheLookup s.cache (file_path, uploaded_file_name) = none) :
    ingest_data eng world s file_path uploaded_file_name =
      ((ingestBody eng world s.config s.engine file_path uploaded_file_name).1,
       { s with
           engine := (ingestBody eng world s.config s.engine file_path uploaded_file_name).2
           cache := ((file_path, uploaded_file_name),
             (ingestBody eng world s.config s.engine file_path uploaded_file_name).1)
             :: s.cache }) := by
  unfold ingest_data
  rw [h]

/-- After any `ingest_data` call the memo table holds the returned
result under the argument pair. -/
theorem ingest_caches (eng : EngineOps) (world : World) (s : LookSeeState)
    (file_path : String) (uploaded_file_name : Option String) :
    cacheLookup (ingest_data eng world s file_path uploaded_file_name).2.cache
        (file_path, uploaded_file_name)
      = some (ingest_data eng world s file_path uploaded_file_name).1 := by
  cases h : cacheLookup s.cache (file_path, uploaded_file_name) with
  | some b => rw [ingest_hit h]; exact h
  | none => rw [ingest_miss h]; simp [cacheLookup]

/-- `ingest_data` never changes the configuration. -/
theorem ingest_config (eng : EngineOps) (world : World) (s : LookSeeState)
    (file_path : String) (uploaded_file_name : Option String) :
    (ingest_data eng world s file_path uploaded_file_name).2.config = s.config := by
  cases h : cacheLookup s.cache (file_path, uploaded_file_name) with
  | some b => rw [ingest_hit h]
  | none => rw [ingest_miss h]

/-- `ingest_data` never changes `self.metadata`. -/
theorem ingest_metadata (eng : EngineOps) (world : World) (s : LookSeeState)
    (file_path : String) (uploaded_file_name : Option String) :
    (ingest_data eng world s file_path uploaded_file_name).2.metadata = s.metadata := by
  cases h : cacheLookup s.cache (file_path, uploaded_file_name) with
  | some b => rw [ingest_hit h]
  | none => rw [ingest_miss h]

/-- `ingest_data` only prepends to the memo table, so lookups of other
keys are preserved. -/
theorem ingest_cache_frame (eng : EngineOps) (world : World) (s : LookSeeState)
    (file_path : String) (uploaded_file_name : Option String)
    (k : String × Option String) (hk : k ≠ (file_path, uploaded_file_name)) :
    cacheLookup (ingest_data eng world s file_path uploaded_file_name).2.cache k
      = cacheLookup s.cache k := by
  cases h : cacheLookup s.cache (file_path, uploaded_file_name) with
  | some b => rw [ingest_hit h]
  | none =>
    rw [ingest_miss h]
    simp only [cacheLookup, List.find?_cons]
    have : ¬ ((file_path, uploaded_file_name) = k) := fun hh => hk hh.symm
    simp [this]

/-- `column_summary` never changes `self.metadata`. -/
theorem summary_metadata (eng : EngineOps) (s : LookSeeState) (col : String) :
    (column_summary eng s col).2.metadata = s.metadata := by
  unfold column_summary
  repeat' split
  all_goals (dsimp only; repeat' split)
  all_goals rfl

/-- The record `column_summary` builds on a numeric-family column. -/
theorem summary_record_numeric (eng : EngineOps) (s : LookSeeState) (col : String)
    (t : Table) (c : Col) (ht : s.engine.table = some t)
    (hc : t.schema.find? (fun c0 => decide (c0.name = col)) = some c)
    (hnum : c.dtype ∈ numericTypes) :
    (column_summary eng s col).1
      = [("min_value", SVal.vopt (minAgg (colVals t col))),
         ("max_value", SVal.vopt (maxAgg (colVals t col))),
         ("mean_value", SVal.vopt (eng.avgFn (colVals t col))),
         ("std_dev", SVal.vopt (eng.stddevFn (colVals t col))),
         ("unique_count", SVal.vnat (uniqueCountAgg (colVals t col))),
         ("null_count", SVal.vnat (countStar t - nonNullCount (colVals t col)))]
        ++ (if uniqueCountAgg (colVals t col) ≤ 5
            then [("distinct_values", SVal.vlist (distinctQuery (colVals t col)))]
            else []) := by
  by_cases h5 : uniqueCountAgg (colVals t col) ≤ 5 <;>
    simp [column_summary, ht, hc, hnum, h5]

/-- The record `column_summary` builds on a DATE column. -/
theorem summary_record_date (eng : EngineOps) (s : LookSeeState) (col : String)
    (t : Table) (c : Col) (ht : s.engine.table = some t)
    (hc : t.schema.find? (fun c0 => decide (c0.name = col)) = some c)
    (hdate : c.dtype = "DATE") :
    (column_summary eng s col).1
      = [("min_value", SVal.vopt (minAgg (colVals t col))),
         ("max_value", SVal.vopt (maxAgg (colVals t col))),
         ("unique_count", SVal.vnat (uniqueCountAgg (colVals t col))),
         ("null_count", SVal.vnat (countStar t - nonNullCount (colVals t col)))]
        ++ (if uniqueCountAgg (colVals t col) ≤ 5
            then [("distinct_values", SVal.vlist (distinctQuery (colVals t col)))]
            else []) := by
  by_cases h5 : uniqueCountAgg (colVals t col) ≤ 5 <;>
    simp [column_summary, ht, hc, hdate, numericTypes, h5]

/-- The record `column_summary` builds on a column of any other type. -/
theorem summary_record_other (eng : EngineOps) (s : LookSeeState) (col : String)
    (t : Table) (c : Col) (ht : s.engine.table = some t)
    (hc : t.schema.find? (fun c0 => decide (c0.name = col)) = some c)
    (hnum : c.dtype ∉ numericTypes) (hdate : c.dtype ≠ "DATE") :
    (column_summary eng s col).1
      = [("unique_count", SVal.vnat (uniqueCountAgg (colVals t col))),
         ("null_count", SVal.vnat (countStar t - nonNullCount (colVals t col)))]
        ++ (if uniqueCountAgg (colVals t col) ≤ 5
            then [("distinct_values", SVal.vlist (distinctQuery (colVals t col)))]
            else []) := by
  by_cases h5 : uniqueCountAgg (colVals t col) ≤ 5 <;>
    simp [column_summary, ht, hc, hnum, hdate, h5]

/-! ### Claim theorems -/

/-- C3: calling `ingest_data` a second time with an identical
(location, declared_name) pair on the same instance returns the same
boolean result as the first call and leaves the whole state - the
engine statement count included - untouched, so the second call runs no
drop, no create and no validation query. -/
theorem ingest_memoized_idempotent (eng : EngineOps) (world : World) (s : LookSeeState)
    (file_path : String) (uploaded_file_name : Option String) :
    ingest_data eng world (ingest_data eng world s file_path uploaded_file_name).2
        file_path uploaded_file_name
      = ingest_data eng world s file_path uploaded_file_name := by
  rw [ingest_hit (ingest_caches eng world s file_path uploaded_file_name)]

/-- C1 counterexample: with the prior table `tA` in place, ingesting
`nope.csv` - a supported extension whose source the engine cannot
read - returns false, yet the prior table is not left as it was: the
DROP of line 53 has already removed it. -/
theorem ingest_failure_drops_table_cex :
    (ingest_data eng0 world0 sPrior "nope.csv" none).1 = false
    ∧ ¬ ((ingest_data eng0 world0 sPrior "nope.csv" none).2.engine.table
          = sPrior.engine.table) := by
  decide

/-- C1 (amended): a false return caused by an unsupported extension, or
served from the memo table, leaves the prior table (and all engine
state) untouched, because the failure precedes every engine statement;
a false return caused by an unreadable or rejected source happens after
the DROP of line 53 has run, so the prior table is gone and no table
remains under the configured name. -/
theorem ingest_failure_table_state (eng : EngineOps) (world : World) (s : LookSeeState)
    (file_path : String) (uploaded_file_name : Option String) :
    (∀ b, cacheLookup s.cache (file_path, uploaded_file_name) = some b →
        ingest_data eng world s file_path uploaded_file_name = (b, s))
    ∧ (cacheLookup s.cache (file_path, uploaded_file_name) = none →
        lookupRead s.config (resolvedFileType file_path uploaded_file_name) = none →
        (ingest_data eng world s file_path uploaded_file_name).1 = false
        ∧ (ingest_data eng world s file_path uploaded_file_name).2.engine = s.engine)
    ∧ (∀ rf, cacheLookup s.cache (file_path, uploaded_file_name) = none →
        lookupRead s.config (resolvedFileType file_path uploaded_file_name) = some rf →
        world rf file_path = none →
        (ingest_data eng world s file_path uploaded_file_name).1 = false
        ∧ (ingest_data eng world s file_path uploaded_file_name).2.engine.table = none) := by
  refine ⟨fun b h => ingest_hit h, fun hm hl => ?_, fun rf hm hl hw => ?_⟩
  · rw [ingest_miss hm]
    simp [ingestBody, hl]
  · rw [ingest_miss hm]
    simp [ingestBody, hl, hw, bump]

/-- Witness for `ingest_failure_table_state` at concrete inputs: the
unsupported extension `data.xyz` leaves the prior table in place, and
the unreadable `nope.csv` leaves no table at all. -/
theorem ingest_failure_table_state_witness :
    ((ingest_data eng0 world0 sPrior "data.xyz" none).1 = false
      ∧ (ingest_data eng0 world0 sPrior "data.xyz" none).2.engine = sPrior.engine)
    ∧ ((ingest_data eng0 world0 sPrior "nope.csv" none).1 = false
      ∧ (ingest_data eng0 world0 sPrior "nope.csv" none).2.engine.table = none) :=
  ⟨(ingest_failure_table_state eng0 world0 sPrior "data.xyz" none).2.1 (by decide) (by decide),
   (ingest_failure_table_state eng0 world0 sPrior "nope.csv" none).2.2 "read_csv" (by decide)
     (by decide) (by decide)⟩

/-- C9: a memoized repeat of `ingest_data` leaves the analytical table
and all engine state exactly as they were before the call; hence after
ingesting source A and then source B, a later `ingest_data` on A
returns true straight from the memo while the named table still holds
B's data - so a true return does not imply the table reflects the
source passed to the most recent call. -/
theorem memoized_ingest_frame (eng : EngineOps) (world : World) (s0 : LookSeeState)
    (fpA fpB : String) (nA nB : Option String) (rfB : String) (tb : Table)
    (hkey : (fpA, nA) ≠ (fpB, nB))
    (hA : (ingest_data eng world s0 fpA nA).1 = true)
    (hmissB : cacheLookup (ingest_data eng world s0 fpA nA).2.cache (fpB, nB) = none)
    (hrfB : lookupRead s0.config (resolvedFileType fpB nB) = some rfB)
    (hwB : world rfB fpB = some tb) :
    (∀ (s : LookSeeState) (fp : String) (n : Option String) (b : Bool),
        cacheLookup s.cache (fp, n) = some b → ingest_data eng world s fp n = (b, s))
    ∧ ingest_data eng world
        (ingest_data eng world (ingest_data eng world s0 fpA nA).2 fpB nB).2 fpA nA
      = (true, (ingest_data eng world (ingest_data eng world s0 fpA nA).2 fpB nB).2)
    ∧ (ingest_data eng world (ingest_data eng world s0 fpA nA).2 fpB nB).2.engine.table
      = some tb := by
  have hcacheA : cacheLookup (ingest_data eng world s0 fpA nA).2.cache (fpA, nA)
      = some true := by
    rw [ingest_caches eng world s0 fpA nA, hA]
  have hframe : cacheLookup
      (ingest_data eng world (ingest_data eng world s0 fpA nA).2 fpB nB).2.cache (fpA, nA)
      = some true := by
    rw [ingest_cache_frame eng world _ fpB nB (fpA, nA) hkey]
    exact hcacheA
  have hcfg : (ingest_data eng world s0 fpA nA).2.config = s0.config :=
    ingest_config eng world s0 fpA nA
  refine ⟨fun s fp n b h => ingest_hit h, ingest_hit hframe, ?_⟩
  rw [ingest_miss hmissB]
  simp [ingestBody, hcfg, hrfB, hwB, validate_column_types, bump]

/-- Witness for `memoized_ingest_frame`: ingest `a.csv`, then `b.csv`,
then `a.csv` again; the repeat returns true while the table still holds
`b.csv`'s data. -/
theorem memoized_ingest_frame_witness :
    ingest_data eng0 world0
        (ingest_data eng0 world0 (ingest_data eng0 world0 sPrior "a.csv" none).2
          "b.csv" none).2 "a.csv" none
      = (true, (ingest_data eng0 world0 (ingest_data eng0 world0 sPrior "a.csv" none).2
          "b.csv" none).2)
    ∧ (ingest_data eng0 world0 (ingest_data eng0 world0 sPrior "a.csv" none).2
        "b.csv" none).2.engine.table = some tB :=
  ⟨(memoized_ingest_frame eng0 world0 sPrior "a.csv" "b.csv" none none "read_csv" tB
      (by decide) (by decide) (by decide) (by decide) (by decide)).2.1,
   (memoized_ingest_frame eng0 world0 sPrior "a.csv" "b.csv" none none "read_csv" tB
      (by decide) (by decide) (by decide) (by decide) (by decide)).2.2⟩

/-- C8 counterexample: with `file_path = "data.csv"` and
`uploaded_file_name` present but equal to the empty string, the
truthiness test of line 44 skips the declared name, so dispatch uses
the extension of the location - `csv` - and not the (empty) extension
of the declared name. -/
theorem ext_dispatch_empty_name_cex :
    resolvedFileType "data.csv" (some "") = ['c', 's', 'v']
    ∧ extChars ("" : String).data = []
    ∧ resolvedFileType "data.csv" (some "") ≠ extChars ("" : String).data := by
  decide

/-- C8 (amended): the extension used for format dispatch is taken from
`uploaded_file_name` whenever that argument is present and non-empty;
when it is absent - or present as the empty string, which Python's
truthiness test treats as absent - it is derived from `file_path`. -/
theorem ext_dispatch (file_path : String) (uploaded_file_name : Option String) :
    (∀ n, uploaded_file_name = some n → n ≠ "" →
        resolvedFileType file_path uploaded_file_name = extChars n.data)
    ∧ (uploaded_file_name = none ∨ uploaded_file_name = some "" →
        resolvedFileType file_path uploaded_file_name = extChars file_path.data) := by
  constructor
  · rintro n rfl hne
    simp [resolvedFileType, hne]
  · rintro (rfl | rfl)
    · rfl
    · simp [resolvedFileType]

/-- Witness for `ext_dispatch`: a real uploaded name wins over the
sanitized temp path; an empty uploaded name falls back to the path. -/
theorem ext_dispatch_witness :
    resolvedFileType "temp_file" (some "report.csv") = extChars ("report.csv" : String).data
    ∧ resolvedFileType "data.csv" (some "") = extChars ("data.csv" : String).data :=
  ⟨(ext_dispatch "temp_file" (some "report.csv")).1 "report.csv" rfl (by decide),
   (ext_dispatch "data.csv" (some "")).2 (Or.inr rfl)⟩

/-- C10: `display_metadata` raises `AttributeError` exactly when
`self.metadata` is unset, which on a fresh instance it is;
`extract_metadata` - successful or failed - always assigns it, after
which `display_metadata` returns the stored list; `ingest_data` and
`column_summary` never touch it; and `display_metadata` reads only the
stored attribute, depending on no engine state and changing nothing. -/
theorem display_metadata_contract (cfg : Config) :
    (initState cfg).metadata = none
    ∧ (∀ s : LookSeeState,
        display_metadata s = Except.error "AttributeError" ↔ s.metadata = none)
    ∧ (∀ s : LookSeeState, ∃ l, display_metadata (extract_metadata s) = Except.ok l)
    ∧ (∀ (eng : EngineOps) (world : World) (s : LookSeeState) (fp : String)
        (n : Option String), (ingest_data eng world s fp n).2.metadata = s.metadata)
    ∧ (∀ (eng : EngineOps) (s : LookSeeState) (col : String),
        (column_summary eng s col).2.metadata = s.metadata)
    ∧ (∀ s1 s2 : LookSeeState, s1.metadata = s2.metadata →
        display_metadata s1 = display_metadata s2) := by
  refine ⟨rfl, ?_, ?_, ?_, ?_, ?_⟩
  · intro s
    cases h : s.metadata <;> simp [display_metadata, h]
  · intro s
    unfold extract_metadata
    cases h : s.engine.table <;> simp [display_metadata]
  · exact fun eng world s fp n => ingest_metadata eng world s fp n
  · exact fun eng s col => summary_metadata eng s col
  · intro s1 s2 h
    unfold display_metadata
    rw [h]

/-- Witness for `display_metadata_contract`: on a fresh instance the
read raises; after an extraction it returns the stored records. -/
theorem display_metadata_contract_witness :
    display_metadata (initState cfg0) = Except.error "AttributeError"
    ∧ (∃ l, display_metadata (extract_metadata sMix) = Except.ok l) :=
  ⟨((display_metadata_contract cfg0).2.1 (initState cfg0)).mpr rfl,
   (display_metadata_contract cfg0).2.2.1 sMix⟩

/-- The distinct-values query always yields a sorted list whose length
is the number of distinct cell groups (NULL counting as one group when
present), capped at five. -/
theorem distinctQuery_spec (vals : List (Option Value)) :
    List.Sorted OLe (distinctQuery vals)
    ∧ (distinctQuery vals).length
      = min 5 (uniqueCountAgg vals + (if none ∈ vals then 1 else 0)) := by
  constructor
  · exact List.Pairwise.sublist (List.take_sublist _ _) (List.sorted_insertionSort _ _)
  · rw [distinctQuery, List.length_take, List.length_insertionSort, dedup_length_eq]

/-- C5: after a successful `extract_metadata`, every produced record
satisfies null_count + (non-null count of its column) = total_rows, and
total_rows is the table's row count - one and the same value - for
every column of the extraction. -/
theorem extract_metadata_counts (s : LookSeeState) (t : Table)
    (ht : s.engine.table = some t) :
    ∃ recs, (extract_metadata s).metadata = some recs
      ∧ ∀ r ∈ recs,
          r.total_rows = countStar t
          ∧ r.null_count + nonNullCount (colVals t r.column_name) = r.total_rows := by
  unfold extract_metadata
  rw [ht]
  refine ⟨t.schema.map (metadataFor t), by simp, ?_⟩
  intro r hr
  rw [List.mem_map] at hr
  obtain ⟨c, hc, rfl⟩ := hr
  have hle := nonNullCount_le_countStar t c.name
  unfold metadataFor
  dsimp only
  exact ⟨rfl, by omega⟩

/-- Witness for `extract_metadata_counts` on the two-column table with
a null. -/
theorem extract_metadata_counts_witness :
    ∃ recs, (extract_metadata sMix).metadata = some recs
      ∧ ∀ r ∈ recs,
          r.total_rows = countStar tMix
          ∧ r.null_count + nonNullCount (colVals tMix r.column_name) = r.total_rows :=
  extract_metadata_counts sMix tMix rfl

/-- C6: when validation counts at least one row whose cell cast to the
column's own declared type is NULL while the original cell is non-null,
`validate_column_types` reports a finding for that column carrying that
count (≥ 1), and `ingest_data` still returns true with the freshly
created table in place: findings never abort or roll back ingestion. -/
theorem validation_nonfatal (eng : EngineOps) (world : World) (s : LookSeeState)
    (file_path : String) (uploaded_file_name : Option String) (rf : String) (t : Table)
    (c : Col) (k : Nat)
    (hmiss : cacheLookup s.cache (file_path, uploaded_file_name) = none)
    (hrf : lookupRead s.config (resolvedFileType file_path uploaded_file_name) = some rf)
    (hw : world rf file_path = some t)
    (hc : c ∈ t.schema)
    (hbad : 1 ≤ invalidCount eng (some t) c) :
    (⟨c.name, c.dtype, invalidCount eng (some t) c⟩ : Finding)
        ∈ (validate_column_types eng { table := some t, execCount := k }).1
    ∧ (ingest_data eng world s file_path uploaded_file_name).1 = true
    ∧ (ingest_data eng world s file_path uploaded_file_name).2.engine.table = some t := by
  refine ⟨?_, ?_, ?_⟩
  · unfold validate_column_types
    dsimp only
    rw [List.mem_filterMap]
    exact ⟨c, hc, by rw [if_pos (show invalidCount eng (some t) c > 0 by omega)]⟩
  · rw [ingest_miss hmiss]
    simp [ingestBody, hrf, hw]
  · rw [ingest_miss hmiss]
    simp [ingestBody, hrf, hw, validate_column_types, bump]

/-- Witness for `validation_nonfatal`: ingesting `bad.csv` creates an
INTEGER column holding the text `oops`; validation finds one
mismatched row and ingestion still reports success. -/
theorem validation_nonfatal_witness :
    (⟨"n", "INTEGER", invalidCount eng0 (some tBad) ⟨"n", "INTEGER"⟩⟩ : Finding)
        ∈ (validate_column_types eng0 { table := some tBad, execCount := 2 }).1
    ∧ (ingest_data eng0 world0 (initState cfg0) "bad.csv" none).1 = true
    ∧ (ingest_data eng0 world0 (initState cfg0) "bad.csv" none).2.engine.table = some tBad :=
  validation_nonfatal eng0 world0 (initState cfg0) "bad.csv" none "read_csv" tBad
    ⟨"n", "INTEGER"⟩ 2 (by decide) (by decide) (by decide) (by decide) (by decide)

/-- C7: engine-level failures never propagate as exceptions:
`ingest_data` converts both failure modes - unsupported extension and
unreadable or rejected source - into a false return; `extract_metadata`
always leaves a stored list; `column_summary` returns the empty record
when the table is absent or the column unknown. -/
theorem no_fault_propagation (eng : EngineOps) (world : World) :
    (∀ (s : LookSeeState) (fp : String) (n : Option String),
        cacheLookup s.cache (fp, n) = none →
        lookupRead s.config (resolvedFileType fp n) = none →
        (ingest_data eng world s fp n).1 = false)
    ∧ (∀ (s : LookSeeState) (fp : String) (n : Option String) (rf : String),
        cacheLookup s.cache (fp, n) = none →
        lookupRead s.config (resolvedFileType fp n) = some rf →
        world rf fp = none →
        (ingest_data eng world s fp n).1 = false)
    ∧ (∀ s : LookSeeState, ∃ l, (extract_metadata s).metadata = some l)
    ∧ (∀ (s : LookSeeState) (col : String),
        s.engine.table = none → (column_summary eng s col).1 = [])
    ∧ (∀ (s : LookSeeState) (col : String) (t : Table),
        s.engine.table = some t →
        t.schema.find? (fun c => decide (c.name = col)) = none →
        (column_summary eng s col).1 = []) := by
  refine ⟨?_, ?_, ?_, ?_, ?_⟩
  · intro s fp n hmiss hl
    rw [ingest_miss hmiss]
    simp [ingestBody, hl]
  · intro s fp n rf hmiss hl hw
    rw [ingest_miss hmiss]
    simp [ingestBody, hl, hw]
  · intro s
    unfold extract_metadata
    cases s.engine.table <;> simp
  · intro s col ht
    unfold column_summary
    rw [ht]
  · intro s col t ht hfind
    simp [column_summary, ht, hfind]

/-- Witness for `no_fault_propagation` at concrete inputs covering all
four failure paths. -/
theorem no_fault_propagation_witness :
    (ingest_data eng0 world0 sCat "notes.txt" none).1 = false
    ∧ (ingest_data eng0 world0 sCat "gone.csv" none).1 = false
    ∧ (∃ l, (extract_metadata (initState cfg0)).metadata = some l)
    ∧ (column_summary eng0 (initState cfg0) "x").1 = []
    ∧ (column_summary eng0 sMix "zzz").1 = [] :=
  ⟨(no_fault_propagation eng0 world0).1 sCat "notes.txt" none (by decide) (by decide),
   (no_fault_propagation eng0 world0).2.1 sCat "gone.csv" none "read_csv" (by decide)
     (by decide) (by decide),
   (no_fault_propagation eng0 world0).2.2.1 (initState cfg0),
   (no_fault_propagation eng0 world0).2.2.2.1 (initState cfg0) "x" rfl,
   (no_fault_propagation eng0 world0).2.2.2.2 sMix "zzz" tMix rfl (by decide)⟩

/-- C2: on a column whose declared type is one of the numeric family
names of line 159 the summary record's keys are exactly min_value,
max_value, mean_value, std_dev, unique_count, null_count - plus
distinct_values exactly when the distinct count is at most 5; on a
column of any other non-DATE type the keys are exactly unique_count and
null_count - plus the same distinct_values rule - and in particular
neither mean_value nor std_dev ever appears. -/
theorem column_summary_keys (eng : EngineOps) (s : LookSeeState) (col : String)
    (t : Table) (c : Col)
    (ht : s.engine.table = some t)
    (hc : t.schema.find? (fun c0 => decide (c0.name = col)) = some c) :
    (c.dtype ∈ numericTypes →
      (column_summary eng s col).1.map Prod.fst
        = ["min_value", "max_value", "mean_value", "std_dev", "unique_count", "null_count"]
          ++ (if uniqueCountAgg (colVals t col) ≤ 5 then ["distinct_values"] else []))
    ∧ (c.dtype ∉ numericTypes → c.dtype ≠ "DATE" →
      (column_summary eng s col).1.map Prod.fst
        = ["unique_count", "null_count"]
          ++ (if uniqueCountAgg (colVals t col) ≤ 5 then ["distinct_values"] else [])
      ∧ "mean_value" ∉ (column_summary eng s col).1.map Prod.fst
      ∧ "std_dev" ∉ (column_summary eng s col).1.map Prod.fst) := by
  constructor
  · intro hnum
    rw [summary_record_numeric eng s col t c ht hc hnum]
    by_cases h5 : uniqueCountAgg (colVals t col) ≤ 5 <;> simp [h5]
  · intro hnum hdate
    rw [summary_record_other eng s col t c ht hc hnum hdate]
    by_cases h5 : uniqueCountAgg (colVals t col) ≤ 5 <;> simp [h5]

/-- Witness for `column_summary_keys`: the INTEGER column of the mixed
table gets the six statistics plus distinct_values; its VARCHAR column
gets only the two counts plus distinct_values, with no mean or
stddev. -/
theorem column_summary_keys_witness :
    (column_summary eng0 sMix "n").1.map Prod.fst
      = ["min_value", "max_value", "mean_value", "std_dev", "unique_count", "null_count",
         "distinct_values"]
    ∧ (column_summary eng0 sMix "c").1.map Prod.fst
      = ["unique_count", "null_count", "distinct_values"]
    ∧ "mean_value" ∉ (column_summary eng0 sMix "c").1.map Prod.fst := by
  have h1 := (column_summary_keys eng0 sMix "n" tMix ⟨"n", "INTEGER"⟩ rfl (by decide)).1
    (by decide)
  have h2 := (column_summary_keys eng0 sMix "c" tMix ⟨"c", "VARCHAR"⟩ rfl (by decide)).2
    (by decide) (by decide)
  refine ⟨?_, ?_, h2.2.1⟩
  · rw [h1, if_pos (by decide)]
    rfl
  · rw [h2.1, if_pos (by decide)]
    rfl

/-- C4 counterexample: the textual column `cat` with cells a, a, NULL
has distinct count 1, yet its `distinct_values` list is [a, NULL] -
length 2, not 1 - because SELECT DISTINCT keeps NULL as its own group
while COUNT(DISTINCT ...) ignores nulls. -/
theorem distinct_values_null_cex :
    uniqueCountAgg (colVals tCat "cat") = 1
    ∧ (column_summary eng0 sCat "cat").1.find? (fun e => decide (e.1 = "distinct_values"))
        = some ("distinct_values", SVal.vlist [some (Value.vstr "a"), none])
    ∧ ¬ ([some (Value.vstr "a"), none] : List (Option Value)).length
        = uniqueCountAgg (colVals tCat "cat") := by
  decide

/-- C4 (amended): when a column's distinct count is at most 5, the
summary includes `distinct_values`, the distinct cell groups sorted
ascending with the NULL group last, truncated to five; its length
equals the distinct count when the column holds no null (the zero-row
case included), and min 5 (distinct count + 1) when it does hold one,
the NULL group being the extra entry; when the distinct count exceeds 5
the key is absent. -/
theorem distinct_values_spec (eng : EngineOps) (s : LookSeeState) (col : String)
    (t : Table) (c : Col)
    (ht : s.engine.table = some t)
    (hc : t.schema.find? (fun c0 => decide (c0.name = col)) = some c) :
    (uniqueCountAgg (colVals t col) ≤ 5 →
      (column_summary eng s col).1.find? (fun e => decide (e.1 = "distinct_values"))
        = some ("distinct_values", SVal.vlist (distinctQuery (colVals t col)))
      ∧ List.Sorted OLe (distinctQuery (colVals t col))
      ∧ (distinctQuery (colVals t col)).length
        = (if none ∈ colVals t col then min 5 (uniqueCountAgg (colVals t col) + 1)
           else uniqueCountAgg (colVals t col)))
    ∧ (¬ uniqueCountAgg (colVals t col) ≤ 5 →
      (column_summary eng s col).1.find? (fun e => decide (e.1 = "distinct_values"))
        = none) := by
  constructor
  · intro h5
    refine ⟨?_, (distinctQuery_spec (colVals t col)).1, ?_⟩
    · by_cases hnum : c.dtype ∈ numericTypes
      · rw [summary_record_numeric eng s col t c ht hc hnum, if_pos h5]
        simp
      · by_cases hdate : c.dtype = "DATE"
        · rw [summary_record_date eng s col t c ht hc hdate, if_pos h5]
          simp
        · rw [summary_record_other eng s col t c ht hc hnum hdate, if_pos h5]
          simp
    · rw [(distinctQuery_spec (colVals t col)).2]
      split <;> omega
  · intro h5
    by_cases hnum : c.dtype ∈ numericTypes
    · rw [summary_record_numeric eng s col t c ht hc hnum, if_neg h5]
      simp
    · by_cases hdate : c.dtype = "DATE"
      · rw [summary_record_date eng s col t c ht hc hdate, if_neg h5]
        simp
      · rw [summary_record_other eng s col t c ht hc hnum hdate, if_neg h5]
        simp

/-- Witness for `distinct_values_spec` on the a, a, NULL column. -/
theorem distinct_values_spec_witness :
    (column_summary eng0 sCat "cat").1.find? (fun e => decide (e.1 = "distinct_values"))
      = some ("distinct_values", SVal.vlist (distinctQuery (colVals tCat "cat")))
    ∧ List.Sorted OLe (distinctQuery (colVals tCat "cat"))
    ∧ (distinctQuery (colVals tCat "cat")).length
      = (if none ∈ colVals tCat "cat" then min 5 (uniqueCountAgg (colVals tCat "cat") + 1)
         else uniqueCountAgg (colVals tCat "cat")) :=
  (distinct_values_spec eng0 sCat "cat" tCat ⟨"cat", "VARCHAR"⟩ rfl (by decide)).1 (by decide)

end LookSee
